import Mathlib

/-!
Verification of the SETEC student CRUD service.

The service (files `alunos.py`, `database.py`, `models.py`, `main.py`) is a
FastAPI application over a single SQLAlchemy table `alunos` with columns
`id` (auto-increment primary key), `nome`, `email`, and `ra` (unique index).
We embed the persistent store as a list of rows plus the auto-increment
counter, each request handler as a pure function from the store to a
(result, store) pair, the unique-index enforcement of `db.commit()` on an
insert as a fallible commit, and the per-request session dependency
`get_db` as explicit state passing with a `closed` flag.
-/

namespace SETEC

/-- A row of the `alunos` table (SQLAlchemy model `AlunoDB` in
`models.py`).  The primary key `id` is `none` until the ORM assigns it on
commit (mirroring a freshly constructed, not yet persisted object). -/
structure AlunoDB where
  id : Option Nat
  nome : String
  email : String
  ra : String
deriving Repr, DecidableEq

/-- The Pydantic request/response model `Aluno` in `models.py`: `nome`,
`email` (already validated/normalized by `EmailStr`), `ra`. -/
structure Aluno where
  nome : String
  email : String
  ra : String
deriving Repr, DecidableEq

/-- The persistent store: the rows of the `alunos` table in insertion
order, plus the auto-increment counter for the primary key. -/
structure Store where
  rows : List AlunoDB
  nextId : Nat
deriving Repr, DecidableEq

/-- Outcome of a request handler: a 200 body, or an `HTTPException`
with a status code and a detail message. -/
inductive HandlerResult (α : Type) where
  | ok : α → HandlerResult α
  | httpError : Nat → String → HandlerResult α
deriving Repr, DecidableEq

/-- Reasons a SQLAlchemy `IntegrityError` can be raised on commit.  The
unique index on `ra` gives `duplicateRa`; `otherViolation` stands for any
other integrity-constraint failure the database might report. -/
inductive IntegrityReason where
  | duplicateRa
  | otherViolation (desc : String)
deriving Repr, DecidableEq

/-- Does some stored row already carry this `ra`? -/
def raExists (s : Store) (ra : String) : Bool :=
  s.rows.any (fun r => r.ra == ra)

/-- Effect of `db.add(aluno_db); db.commit(); db.refresh(aluno_db)` for an insert:
the unique index on `ra` rejects a duplicate with an `IntegrityError`;
otherwise the row is appended with the freshly assigned primary key. -/
def commitInsert (s : Store) (a : AlunoDB) : Except IntegrityReason (AlunoDB × Store) :=
  if raExists s a.ra then
    .error .duplicateRa
  else
    let row : AlunoDB := { a with id := some s.nextId }
    .ok (row, { rows := s.rows ++ [row], nextId := s.nextId + 1 })

/-- The `AlunoDB(nome=aluno.nome, email=aluno.email, ra=aluno.ra)`
constructor call in `criar_aluno`: a pending row with no id yet. -/
def mkRow (aluno : Aluno) : AlunoDB :=
  { id := none, nome := aluno.nome, email := aluno.email, ra := aluno.ra }

/-- Handler `criar_aluno` (POST `/alunos/`), parameterized by the commit
operation so that the `except IntegrityError` clause can be studied
against an arbitrary integrity failure: on success the persisted row is
returned; on any `IntegrityError` the session is rolled back (the store
reverts to its state at entry) and HTTP 400 with the fixed duplicate-RA
detail is raised. -/
def criar_aluno_with
    (commit : Store → AlunoDB → Except IntegrityReason (AlunoDB × Store))
    (aluno : Aluno) (db : Store) : HandlerResult AlunoDB × Store :=
  match commit db (mkRow aluno) with
  | .ok (row, s) => (.ok row, s)
  | .error _ => (.httpError 400 "Aluno com esse RA já existe.", db)

/-- Handler `criar_aluno` against the real store semantics. -/
def criar_aluno (aluno : Aluno) (db : Store) : HandlerResult AlunoDB × Store :=
  criar_aluno_with commitInsert aluno db

/-- Query `db.query(AlunoDB).filter(AlunoDB.ra == ra).first()`. -/
def firstByRa (rows : List AlunoDB) (ra : String) : Option AlunoDB :=
  rows.find? (fun r => r.ra == ra)

/-- Handler `listar_alunos` (GET `/alunos/`): all rows, store untouched. -/
def listar_alunos (db : Store) : HandlerResult (List AlunoDB) × Store :=
  (.ok db.rows, db)

/-- Handler `obter_aluno` (GET `/alunos/{ra}`): first row matching `ra`, or
HTTP 404 with the fixed not-found detail. -/
def obter_aluno (ra : String) (db : Store) : HandlerResult AlunoDB × Store :=
  match firstByRa db.rows ra with
  | none => (.httpError 404 "Aluno não encontrado.", db)
  | some aluno => (.ok aluno, db)

/-- In-place mutation of the first row matching `ra` (the ORM object
returned by `.first()` is mutated and the change committed). -/
def updateFirstByRa (rows : List AlunoDB) (ra : String) (f : AlunoDB → AlunoDB) :
    List AlunoDB :=
  match rows with
  | [] => []
  | r :: rs => if r.ra == ra then f r :: rs else r :: updateFirstByRa rs ra f

/-- The field assignment performed by `atualizar_aluno`:
`aluno.nome = aluno_atualizado.nome; aluno.email = aluno_atualizado.email`.
`ra` and `id` are not touched. -/
def overwriteNomeEmail (body : Aluno) (r : AlunoDB) : AlunoDB :=
  { r with nome := body.nome, email := body.email }

/-- Handler `atualizar_aluno` (PUT `/alunos/{ra}`): 404 if no row matches the
path `ra`; otherwise overwrite `nome` and `email` of the matching row
from the body, commit, and return the refreshed row. -/
def atualizar_aluno (ra : String) (aluno_atualizado : Aluno) (db : Store) :
    HandlerResult AlunoDB × Store :=
  match firstByRa db.rows ra with
  | none => (.httpError 404 "Aluno não encontrado.", db)
  | some aluno =>
      (.ok (overwriteNomeEmail aluno_atualizado aluno),
       { db with rows := updateFirstByRa db.rows ra (overwriteNomeEmail aluno_atualizado) })

/-- Effect of `db.delete(aluno); db.commit()`: remove the first row matching `ra`. -/
def removeFirstByRa (rows : List AlunoDB) (ra : String) : List AlunoDB :=
  match rows with
  | [] => []
  | r :: rs => if r.ra == ra then rs else r :: removeFirstByRa rs ra

/-- Handler `deletar_aluno` (DELETE `/alunos/{ra}`): 404 if no row matches;
otherwise delete the matching row, commit, and return the row's field
values as they were just before removal. -/
def deletar_aluno (ra : String) (db : Store) : HandlerResult AlunoDB × Store :=
  match firstByRa db.rows ra with
  | none => (.httpError 404 "Aluno não encontrado.", db)
  | some aluno => (.ok aluno, { db with rows := removeFirstByRa db.rows ra })

/-- A database session as handed out by `get_db` in `database.py`:
identified by which invocation of `SessionLocal()` produced it, with its
open/closed state. -/
structure DbSession where
  sid : Nat
  closed : Bool
deriving Repr, DecidableEq

/-- An `HTTPException` escaping a handler. -/
inductive HttpExc where
  | exc : Nat → String → HttpExc
deriving Repr, DecidableEq

/-- The session constructed by the `SessionLocal()` call inside
`get_db`: fresh, i.e. not closed. -/
def mkSession (sid : Nat) : DbSession :=
  { sid := sid, closed := false }

/-- Dependency `get_db` in `database.py`: construct a dedicated session, yield it
to the request handler, and close it in the `finally` block — whether
the handler returned normally or raised.  The handler is modelled as a
function from the session to its outcome (normal return or escaping
`HTTPException`) together with the session's state at exit. -/
def get_db {α : Type} (sid : Nat)
    (handler : DbSession → (Except HttpExc α) × DbSession) :
    (Except HttpExc α) × DbSession :=
  let db := mkSession sid
  let r := handler db
  (r.1, { r.2 with closed := true })

/-- The academic-ID uniqueness invariant: no two stored rows share `ra`
(the unique index on the `ra` column). -/
def RaUnique (s : Store) : Prop :=
  s.rows.Pairwise (fun a b => a.ra ≠ b.ra)

instance (s : Store) : Decidable (RaUnique s) := by
  unfold RaUnique; infer_instance

/-- One client-visible operation of the service. -/
inductive Op where
  | create (a : Aluno)
  | list
  | get (ra : String)
  | update (ra : String) (a : Aluno)
  | delete (ra : String)

/-- The store after one operation. -/
def applyOp (op : Op) (s : Store) : Store :=
  match op with
  | .create a => (criar_aluno a s).2
  | .list => (listar_alunos s).2
  | .get ra => (obter_aluno ra s).2
  | .update ra a => (atualizar_aluno ra a s).2
  | .delete ra => (deletar_aluno ra s).2

/-- The store after a sequence of operations. -/
def applyOps (ops : List Op) (s : Store) : Store :=
  ops.foldl (fun s op => applyOp op s) s

/-! ### Helper lemmas about the store primitives -/

theorem raExists_false_iff (s : Store) (ra : String) :
    raExists s ra = false ↔ ∀ r ∈ s.rows, r.ra ≠ ra := by
  simp [raExists, List.any_eq_false]

theorem raExists_true_iff (s : Store) (ra : String) :
    raExists s ra = true ↔ ∃ r ∈ s.rows, r.ra = ra := by
  simp [raExists, List.any_eq_true]

theorem firstByRa_eq_none_iff (rows : List AlunoDB) (ra : String) :
    firstByRa rows ra = none ↔ ∀ r ∈ rows, r.ra ≠ ra := by
  simp [firstByRa, List.find?_eq_none]

/-- Anatomy of a successful `.first()` lookup: the store splits around the
first matching row, earlier rows do not match, the found row matches, and
the in-place update / delete of that row act on exactly that position. -/
theorem firstByRa_split (rows : List AlunoDB) (ra : String) (aluno : AlunoDB)
    (h : firstByRa rows ra = some aluno) :
    ∃ l₁ l₂, rows = l₁ ++ aluno :: l₂ ∧ (∀ r ∈ l₁, r.ra ≠ ra) ∧ aluno.ra = ra ∧
      (∀ f, updateFirstByRa rows ra f = l₁ ++ f aluno :: l₂) ∧
      removeFirstByRa rows ra = l₁ ++ l₂ := by
  induction rows with
  | nil => simp [firstByRa] at h
  | cons r rs ih =>
      by_cases hr : (r.ra == ra) = true
      · have hra : aluno = r := by
          simp [firstByRa, List.find?_cons, hr] at h
          exact h.symm
        subst hra
        exact ⟨[], rs, by simp, by simp, by simpa using hr,
          fun f => by simp [updateFirstByRa, hr],
          by simp [removeFirstByRa, hr]⟩
      · have hr' : (r.ra == ra) = false := by simpa using hr
        have htail : firstByRa rs ra = some aluno := by
          simpa [firstByRa, List.find?_cons, hr'] using h
        obtain ⟨l₁, l₂, hsplit, hnot, hmatch, hupd, hrem⟩ := ih htail
        refine ⟨r :: l₁, l₂, by simp [hsplit], ?_, hmatch, ?_, ?_⟩
        · intro x hx
          rcases List.mem_cons.mp hx with hx | hx
          · subst hx; simpa using hr'
          · exact hnot x hx
        · intro f
          simp [updateFirstByRa, hr', hupd f]
        · simp [removeFirstByRa, hr', hrem]

theorem find?_append_of_first_none {α : Type} (p : α → Bool) (l₁ l₂ : List α)
    (h : ∀ r ∈ l₁, p r = false) :
    List.find? p (l₁ ++ l₂) = List.find? p l₂ := by
  induction l₁ with
  | nil => simp
  | cons r rs ih =>
      have hr : p r = false := h r (by simp)
      simp [List.find?_cons, hr, ih fun x hx => h x (by simp [hx])]

theorem removeFirstByRa_sublist (rows : List AlunoDB) (ra : String) :
    List.Sublist (removeFirstByRa rows ra) rows := by
  induction rows with
  | nil => simp [removeFirstByRa]
  | cons r rs ih =>
      by_cases hr : (r.ra == ra) = true
      · simp only [removeFirstByRa, hr, if_true]
        exact List.sublist_cons_self r rs
      · have hr' : (r.ra == ra) = false := by simpa using hr
        simpa [removeFirstByRa, hr'] using List.Sublist.cons₂ r ih

theorem updateFirstByRa_map_ra (rows : List AlunoDB) (ra : String) (body : Aluno) :
    (updateFirstByRa rows ra (overwriteNomeEmail body)).map (fun r => r.ra) =
      rows.map (fun r => r.ra) := by
  induction rows with
  | nil => rfl
  | cons r rs ih =>
      by_cases hr : (r.ra == ra) = true
      · simp [updateFirstByRa, hr, overwriteNomeEmail]
      · have hr' : (r.ra == ra) = false := by simpa using hr
        simp [updateFirstByRa, hr', ih]

theorem raUnique_iff_map (s : Store) :
    RaUnique s ↔ (s.rows.map fun r => r.ra).Pairwise (fun a b => a ≠ b) := by
  rw [RaUnique, List.pairwise_map]

/-! ### Invariant preservation by each operation -/

theorem criar_aluno_preserves (a : Aluno) (s : Store) (h : RaUnique s) :
    RaUnique ((criar_aluno a s).2) := by
  by_cases hra : raExists s a.ra = true
  · simp [criar_aluno, criar_aluno_with, commitInsert, mkRow, hra]
    exact h
  · have hra' : raExists s a.ra = false := by simpa using hra
    have hfresh := (raExists_false_iff s a.ra).mp hra'
    simp [criar_aluno, criar_aluno_with, commitInsert, mkRow, hra']
    refine List.pairwise_append.mpr ⟨h, List.pairwise_singleton _ _, ?_⟩
    intro r hr b hb
    rcases List.mem_singleton.mp hb with rfl
    exact hfresh r hr

theorem obter_aluno_store_eq (ra : String) (s : Store) :
    (obter_aluno ra s).2 = s := by
  unfold obter_aluno
  cases firstByRa s.rows ra <;> rfl

theorem atualizar_aluno_preserves (ra : String) (a : Aluno) (s : Store)
    (h : RaUnique s) : RaUnique ((atualizar_aluno ra a s).2) := by
  unfold atualizar_aluno
  cases hf : firstByRa s.rows ra with
  | none => exact h
  | some aluno =>
      rw [raUnique_iff_map] at h ⊢
      simpa [updateFirstByRa_map_ra] using h

theorem deletar_aluno_preserves (ra : String) (s : Store) (h : RaUnique s) :
    RaUnique ((deletar_aluno ra s).2) := by
  unfold deletar_aluno
  cases hf : firstByRa s.rows ra with
  | none => exact h
  | some aluno => exact h.sublist (removeFirstByRa_sublist s.rows ra)

theorem applyOp_preserves (op : Op) (s : Store) (h : RaUnique s) :
    RaUnique (applyOp op s) := by
  cases op with
  | create a => exact criar_aluno_preserves a s h
  | list => exact h
  | get ra => rw [applyOp, obter_aluno_store_eq]; exact h
  | update ra a => exact atualizar_aluno_preserves ra a s h
  | delete ra => exact deletar_aluno_preserves ra s h

theorem applyOps_preserves (ops : List Op) :
    ∀ s : Store, RaUnique s → RaUnique (applyOps ops s) := by
  induction ops with
  | nil => intro s h; exact h
  | cons op ops ih =>
      intro s h
      exact ih (applyOp op s) (applyOp_preserves op s h)

/-! ### Evaluation lemmas for `criar_aluno` -/

theorem criar_aluno_dup_eq (a : Aluno) (s : Store) (h : raExists s a.ra = true) :
    criar_aluno a s = (.httpError 400 "Aluno com esse RA já existe.", s) := by
  simp [criar_aluno, criar_aluno_with, commitInsert, mkRow, h]

theorem criar_aluno_fresh_eq (a : Aluno) (s : Store) (h : raExists s a.ra = false) :
    criar_aluno a s =
      (.ok { id := some s.nextId, nome := a.nome, email := a.email, ra := a.ra },
       { rows := s.rows ++
           [{ id := some s.nextId, nome := a.nome, email := a.email, ra := a.ra }],
         nextId := s.nextId + 1 }) := by
  simp [criar_aluno, criar_aluno_with, commitInsert, mkRow, h]

/-! ### Concrete data used by the witnesses -/

def wAna : Aluno := { nome := "Ana", email := "ana@x.com", ra := "RA001" }

def wBruno : Aluno := { nome := "Bruno", email := "bruno@x.com", ra := "RA002" }

def wBodyOther : Aluno := { nome := "Carla", email := "carla@x.com", ra := "RA999" }

def wRowAna : AlunoDB := { id := some 1, nome := "Ana", email := "ana@x.com", ra := "RA001" }

def wStore : Store := { rows := [wRowAna], nextId := 2 }

def wEmptyStore : Store := { rows := [], nextId := 1 }

/-- A handler that raises an `HTTPException`, to exercise the error exit
path of `get_db`. -/
def wErrHandler : DbSession → (Except HttpExc Nat) × DbSession :=
  fun db => (.error (.exc 404 "Aluno não encontrado."), db)

/-- A commit that fails with an integrity violation other than a
duplicate `ra`. -/
def wFailCommit : Store → AlunoDB → Except IntegrityReason (AlunoDB × Store) :=
  fun _ _ => .error (.otherViolation "NOT NULL constraint failed")

/-! ### The claims -/

/-- C1: a create request whose `ra` already belongs to a stored student
returns HTTP 400 with the fixed duplicate-RA detail message, the in-flight
transaction is rolled back (the store is exactly as at entry), and every
previously stored record — in particular the one with that `ra` — is still
stored unmodified. -/
theorem criar_aluno_duplicate_conflict (a : Aluno) (s : Store)
    (h : ∃ r ∈ s.rows, r.ra = a.ra) :
    criar_aluno a s = (.httpError 400 "Aluno com esse RA já existe.", s) ∧
    ∀ r ∈ s.rows, r ∈ ((criar_aluno a s).2).rows := by
  have hra : raExists s a.ra = true := (raExists_true_iff s a.ra).mpr h
  have hmain := criar_aluno_dup_eq a s hra
  exact ⟨hmain, fun r hr => by rw [hmain]; exact hr⟩

/-- Witness for C1 on a concrete store already holding `ra` RA001. -/
theorem criar_aluno_duplicate_conflict_witness :
    criar_aluno wAna wStore = (.httpError 400 "Aluno com esse RA já existe.", wStore) ∧
    ∀ r ∈ wStore.rows, r ∈ ((criar_aluno wAna wStore).2).rows :=
  criar_aluno_duplicate_conflict wAna wStore ⟨wRowAna, by decide, rfl⟩

/-- C2: academic-ID uniqueness is an invariant: starting from any store
satisfying it, every sequence of create, list, get, update and delete
operations yields a store still satisfying it; and a create that would
violate it is answered with the HTTP 400 conflict rather than a crash. -/
theorem ra_uniqueness_invariant (s : Store) (h : RaUnique s) :
    (∀ ops : List Op, RaUnique (applyOps ops s)) ∧
    (∀ a : Aluno, (∃ r ∈ s.rows, r.ra = a.ra) →
      (criar_aluno a s).1 = .httpError 400 "Aluno com esse RA já existe.") := by
  refine ⟨fun ops => applyOps_preserves ops s h, fun a ha => ?_⟩
  rw [criar_aluno_dup_eq a s ((raExists_true_iff s a.ra).mpr ha)]

/-- Witness for C2: a concrete operation sequence on a concrete store, and
a conflicting create on it. -/
theorem ra_uniqueness_invariant_witness :
    RaUnique wStore ∧
    RaUnique (applyOps [Op.create wBruno, Op.delete "RA001", Op.update "RA002" wAna]
      wStore) ∧
    (criar_aluno wAna wStore).1 = .httpError 400 "Aluno com esse RA já existe." :=
  ⟨by decide,
   (ra_uniqueness_invariant wStore (by decide)).1 _,
   (ra_uniqueness_invariant wStore (by decide)).2 wAna ⟨wRowAna, by decide, rfl⟩⟩

/-- C3: an update whose path `ra` matches a stored record returns HTTP 200
with that record, its `nome` and `email` overwritten from the body while
its `ra` and `id` are untouched; all other records and the id counter are
unchanged.  An update whose path `ra` matches nothing returns HTTP 404 and
leaves the store unchanged. -/
theorem atualizar_aluno_correct (ra : String) (body : Aluno) (s : Store) :
    (∀ aluno, firstByRa s.rows ra = some aluno →
      ∃ l₁ l₂,
        s.rows = l₁ ++ aluno :: l₂ ∧
        (atualizar_aluno ra body s).1 =
          .ok { aluno with nome := body.nome, email := body.email } ∧
        ((atualizar_aluno ra body s).2).rows =
          l₁ ++ { aluno with nome := body.nome, email := body.email } :: l₂ ∧
        ((atualizar_aluno ra body s).2).nextId = s.nextId) ∧
    (firstByRa s.rows ra = none →
      atualizar_aluno ra body s = (.httpError 404 "Aluno não encontrado.", s)) := by
  constructor
  · intro aluno h
    obtain ⟨l₁, l₂, hsplit, hnot, hmatch, hupd, hrem⟩ := firstByRa_split s.rows ra aluno h
    refine ⟨l₁, l₂, hsplit, ?_, ?_, ?_⟩
    · simp [atualizar_aluno, h, overwriteNomeEmail]
    · simp [atualizar_aluno, h, hupd (overwriteNomeEmail body), overwriteNomeEmail]
    · simp [atualizar_aluno, h]
  · intro h
    simp [atualizar_aluno, h]

/-- Witness for C3 on a concrete store with a matching record. -/
theorem atualizar_aluno_correct_witness :
    ∃ l₁ l₂,
      wStore.rows = l₁ ++ wRowAna :: l₂ ∧
      (atualizar_aluno "RA001" wBruno wStore).1 =
        .ok { wRowAna with nome := wBruno.nome, email := wBruno.email } ∧
      ((atualizar_aluno "RA001" wBruno wStore).2).rows =
        l₁ ++ { wRowAna with nome := wBruno.nome, email := wBruno.email } :: l₂ ∧
      ((atualizar_aluno "RA001" wBruno wStore).2).nextId = wStore.nextId :=
  (atualizar_aluno_correct "RA001" wBruno wStore).1 wRowAna (by decide)

/-- C4: a delete whose path `ra` matches a stored record, on a store
satisfying the uniqueness invariant, returns HTTP 200 with the record's
field values as they were just before removal; a subsequent get on that
`ra` returns HTTP 404; the store loses exactly that record.  A delete
whose `ra` matches nothing returns HTTP 404 and leaves the store
unchanged. -/
theorem deletar_aluno_correct (ra : String) (s : Store) (hu : RaUnique s) :
    (∀ aluno, firstByRa s.rows ra = some aluno →
      (deletar_aluno ra s).1 = .ok aluno ∧ aluno ∈ s.rows ∧ aluno.ra = ra ∧
      (obter_aluno ra ((deletar_aluno ra s).2)).1 =
        .httpError 404 "Aluno não encontrado." ∧
      ∃ l₁ l₂, s.rows = l₁ ++ aluno :: l₂ ∧
        ((deletar_aluno ra s).2).rows = l₁ ++ l₂) ∧
    (firstByRa s.rows ra = none →
      deletar_aluno ra s = (.httpError 404 "Aluno não encontrado.", s)) := by
  constructor
  · intro aluno h
    obtain ⟨l₁, l₂, hsplit, hnot, hmatch, hupd, hrem⟩ := firstByRa_split s.rows ra aluno h
    have hmem : aluno ∈ s.rows := List.mem_of_find?_eq_some h
    have hl₂ : ∀ b ∈ l₂, b.ra ≠ ra := by
      have hp : RaUnique s := hu
      rw [RaUnique, hsplit] at hp
      have h2 := (List.pairwise_append.mp hp).2.1
      intro b hb
      rw [← hmatch]
      exact fun he => (List.pairwise_cons.mp h2).1 b hb he.symm
    have hnone : firstByRa (l₁ ++ l₂) ra = none := by
      unfold firstByRa
      rw [find?_append_of_first_none _ l₁ l₂
        (fun r hr => beq_eq_false_iff_ne.mpr (hnot r hr))]
      exact (firstByRa_eq_none_iff l₂ ra).mpr hl₂
    refine ⟨by simp [deletar_aluno, h], hmem, hmatch, ?_, l₁, l₂, hsplit, ?_⟩
    · simp [deletar_aluno, h, obter_aluno, hrem, hnone]
    · simp [deletar_aluno, h, hrem]
  · intro h
    simp [deletar_aluno, h]

/-- Witness for C4 on a concrete one-record store. -/
theorem deletar_aluno_correct_witness :
    (deletar_aluno "RA001" wStore).1 = .ok wRowAna ∧ wRowAna ∈ wStore.rows ∧
    wRowAna.ra = "RA001" ∧
    (obter_aluno "RA001" ((deletar_aluno "RA001" wStore).2)).1 =
      .httpError 404 "Aluno não encontrado." ∧
    ∃ l₁ l₂, wStore.rows = l₁ ++ wRowAna :: l₂ ∧
      ((deletar_aluno "RA001" wStore).2).rows = l₁ ++ l₂ :=
  (deletar_aluno_correct "RA001" wStore (by decide)).1 wRowAna (by decide)

/-- C5: round-trip: a create with a fresh `ra` succeeds, and an
immediately following get with that `ra` returns a record whose `nome`,
`email` and `ra` are identical to the submitted (already
validation-normalized) values. -/
theorem create_then_get_roundtrip (a : Aluno) (s : Store)
    (h : raExists s a.ra = false) :
    ∃ row s2, criar_aluno a s = (.ok row, s2) ∧
      (obter_aluno a.ra s2).1 = .ok row ∧
      row.nome = a.nome ∧ row.email = a.email ∧ row.ra = a.ra := by
  refine ⟨_, _, criar_aluno_fresh_eq a s h, ?_, rfl, rfl, rfl⟩
  have hfind : firstByRa
      (s.rows ++ [{ id := some s.nextId, nome := a.nome, email := a.email, ra := a.ra }])
      a.ra =
      some { id := some s.nextId, nome := a.nome, email := a.email, ra := a.ra } := by
    unfold firstByRa
    rw [find?_append_of_first_none _ s.rows _
      (fun r hr => beq_eq_false_iff_ne.mpr ((raExists_false_iff s a.ra).mp h r hr))]
    simp [List.find?]
  simp [obter_aluno, hfind]

/-- Witness for C5 on the empty store. -/
theorem create_then_get_roundtrip_witness :
    ∃ row s2, criar_aluno wAna wEmptyStore = (.ok row, s2) ∧
      (obter_aluno wAna.ra s2).1 = .ok row ∧
      row.nome = wAna.nome ∧ row.email = wAna.email ∧ row.ra = wAna.ra :=
  create_then_get_roundtrip wAna wEmptyStore (by decide)

/-- C6: a create with a fresh `ra` returns HTTP 200 with the persisted
record; that record's `id` is the store's newly assigned counter value —
in particular not null — the record is appended to the store (committed
before return) and the counter advances. -/
theorem criar_aluno_fresh_commits (a : Aluno) (s : Store)
    (h : raExists s a.ra = false) :
    ∃ row, criar_aluno a s =
        (.ok row, { rows := s.rows ++ [row], nextId := s.nextId + 1 }) ∧
      row.id = some s.nextId ∧ row.id ≠ none ∧
      row ∈ ((criar_aluno a s).2).rows := by
  refine ⟨_, criar_aluno_fresh_eq a s h, rfl, by simp, ?_⟩
  rw [criar_aluno_fresh_eq a s h]
  simp

/-- Witness for C6: creating a second student on a one-record store. -/
theorem criar_aluno_fresh_commits_witness :
    ∃ row, criar_aluno wBruno wStore =
        (.ok row, { rows := wStore.rows ++ [row], nextId := wStore.nextId + 1 }) ∧
      row.id = some wStore.nextId ∧ row.id ≠ none ∧
      row ∈ ((criar_aluno wBruno wStore).2).rows :=
  criar_aluno_fresh_commits wBruno wStore (by decide)

/-- C7: a get whose `ra` matches a stored record returns HTTP 200 with the
matching record and leaves the store unchanged; otherwise it returns
HTTP 404 with the fixed not-found detail and leaves the store unchanged;
and the lookup fails exactly when no stored record carries that `ra`. -/
theorem obter_aluno_correct (ra : String) (s : Store) :
    (∀ aluno, firstByRa s.rows ra = some aluno →
      obter_aluno ra s = (.ok aluno, s) ∧ aluno ∈ s.rows ∧ aluno.ra = ra) ∧
    (firstByRa s.rows ra = none →
      obter_aluno ra s = (.httpError 404 "Aluno não encontrado.", s)) ∧
    (firstByRa s.rows ra = none ↔ ∀ r ∈ s.rows, r.ra ≠ ra) := by
  refine ⟨?_, ?_, firstByRa_eq_none_iff s.rows ra⟩
  · intro aluno h
    refine ⟨by simp [obter_aluno, h], List.mem_of_find?_eq_some h, ?_⟩
    have h' : s.rows.find? (fun r => r.ra == ra) = some aluno := h
    simpa using List.find?_some h'
  · intro h
    simp [obter_aluno, h]

/-- Witness for C7 on a concrete one-record store. -/
theorem obter_aluno_correct_witness :
    obter_aluno "RA001" wStore = (.ok wRowAna, wStore) ∧
    wRowAna ∈ wStore.rows ∧ wRowAna.ra = "RA001" :=
  (obter_aluno_correct "RA001" wStore).1 wRowAna (by decide)

/-- C8: every request served through `get_db` runs against a session that
is freshly constructed for it (sessions of distinct acquisitions are
distinct objects) and that session is closed when `get_db` finishes, on
the normal exit path and on the error path alike — the handler's outcome,
error included, is passed through after the close. -/
theorem get_db_session_lifecycle {α : Type} (sid : Nat)
    (handler : DbSession → (Except HttpExc α) × DbSession) :
    ((get_db sid handler).2).closed = true ∧
    (get_db sid handler).1 = (handler (mkSession sid)).1 ∧
    (mkSession sid).closed = false ∧
    (∀ sid2, sid ≠ sid2 → mkSession sid ≠ mkSession sid2) := by
  refine ⟨rfl, rfl, rfl, fun sid2 hne heq => hne (congrArg DbSession.sid heq)⟩

/-- Witness for C8: a handler that raises still has its session closed,
and two acquisitions give distinct sessions. -/
theorem get_db_session_lifecycle_witness :
    ((get_db 0 wErrHandler).2).closed = true ∧ mkSession 0 ≠ mkSession 1 :=
  ⟨(get_db_session_lifecycle 0 wErrHandler).1,
   (get_db_session_lifecycle 0 wErrHandler).2.2.2 1 (by decide)⟩

/-- C9: the `except IntegrityError` clause of `criar_aluno` catches every
integrity failure the commit reports — whatever its reason — rolls back,
and answers HTTP 400 with the duplicate-RA detail message even when the
violation was not a duplicate `ra`. -/
theorem criar_aluno_maps_any_integrity_error
    (commit : Store → AlunoDB → Except IntegrityReason (AlunoDB × Store))
    (a : Aluno) (s : Store) (reason : IntegrityReason)
    (h : commit s (mkRow a) = .error reason) :
    criar_aluno_with commit a s = (.httpError 400 "Aluno com esse RA já existe.", s) := by
  simp [criar_aluno_with, h]

/-- Witness for C9: a non-duplicate integrity failure is still reported as
a duplicate `ra`. -/
theorem criar_aluno_maps_any_integrity_error_witness :
    criar_aluno_with wFailCommit wBruno wEmptyStore =
      (.httpError 400 "Aluno com esse RA já existe.", wEmptyStore) :=
  criar_aluno_maps_any_integrity_error wFailCommit wBruno wEmptyStore
    (.otherViolation "NOT NULL constraint failed") rfl

/-- C10: the update handler ignores the `ra` carried by the request body:
even when the body's `ra` differs from the path's, the stored record keeps
its original `ra` (which therefore differs from the body's) and only
`nome` and `email` are taken from the body. -/
theorem atualizar_aluno_ignores_body_ra (ra : String) (body : Aluno) (s : Store)
    (hbody : body.ra ≠ ra) :
    ∀ aluno, firstByRa s.rows ra = some aluno →
      (atualizar_aluno ra body s).1 =
        .ok { aluno with nome := body.nome, email := body.email } ∧
      ∃ l₁ l₂, s.rows = l₁ ++ aluno :: l₂ ∧
        ((atualizar_aluno ra body s).2).rows =
          l₁ ++ { aluno with nome := body.nome, email := body.email } :: l₂ ∧
        ({ aluno with nome := body.nome, email := body.email } : AlunoDB).ra = aluno.ra ∧
        ({ aluno with nome := body.nome, email := body.email } : AlunoDB).ra ≠ body.ra := by
  intro aluno h
  obtain ⟨l₁, l₂, hsplit, hnot, hmatch, hupd, hrem⟩ := firstByRa_split s.rows ra aluno h
  refine ⟨by simp [atualizar_aluno, h, overwriteNomeEmail], l₁, l₂, hsplit, ?_, rfl, ?_⟩
  · simp [atualizar_aluno, h, hupd (overwriteNomeEmail body), overwriteNomeEmail]
  · show aluno.ra ≠ body.ra
    rw [hmatch]
    exact fun he => hbody he.symm

/-- Witness for C10: a body carrying `ra` RA999 against path RA001. -/
theorem atualizar_aluno_ignores_body_ra_witness :
    (atualizar_aluno "RA001" wBodyOther wStore).1 =
      .ok { wRowAna with nome := wBodyOther.nome, email := wBodyOther.email } ∧
    ∃ l₁ l₂, wStore.rows = l₁ ++ wRowAna :: l₂ ∧
      ((atualizar_aluno "RA001" wBodyOther wStore).2).rows =
        l₁ ++ { wRowAna with nome := wBodyOther.nome, email := wBodyOther.email } :: l₂ ∧
      ({ wRowAna with nome := wBodyOther.nome, email := wBodyOther.email } : AlunoDB).ra
        = wRowAna.ra ∧
      ({ wRowAna with nome := wBodyOther.nome, email := wBodyOther.email } : AlunoDB).ra
        ≠ wBodyOther.ra :=
  atualizar_aluno_ignores_body_ra "RA001" wBodyOther wStore (by decide) wRowAna (by decide)

end SETEC
